import Mathlib

/-!
Verification development for the CHESS candidate consensus and selection
engine.  The definitions below are shallow embeddings of the Python
functions in `src/database_utils/execution.py`,
`src/workflow/sql_meta_info.py`,
`src/workflow/agents/unit_tester/tool_kit/evaluate.py` and
`src/workflow/agents/unit_tester/tool_kit/generate_unit_test.py`.
Rows returned by SQLite are modelled as tuples of integers
(`Row := List Int`); database execution is modelled by explicit oracles
(`String → ExecResult`), since the embedding cannot run SQLite itself.
-/

/-- A database row: SQLite `fetchall` returns a list of tuples.  Cell
values are abstracted as integers. -/
abbrev Row := List Int

/-- Outcome of one call to `execute_sql`: either the fetched rows, or the
text of the exception it raised (`str(e)` in Python). -/
inductive ExecResult where
  | ok (rows : List Row)
  | err (msg : String)
deriving DecidableEq, Repr

/-- Outcome of a Python code path that may raise: either a value or the
exception's text. -/
inductive PyResult (α : Type) where
  | ok (val : α)
  | raise (msg : String)
deriving DecidableEq, Repr

/-- Python `repr` of one row (a tuple of ints): `(1, 2)`, one-element
tuples print as `(1,)`, the empty tuple as `()`. -/
def pyReprRow : Row → String
  | [] => "()"
  | [x] => "(" ++ toString x ++ ",)"
  | xs => "(" ++ String.intercalate ", " (xs.map toString) ++ ")"

/-- Python `repr` of a list of rows, e.g. `[(1,), (2,)]`. -/
def pyReprRows (rs : List Row) : String :=
  "[" ++ String.intercalate ", " (rs.map pyReprRow) ++ "]"

/-- Equality of two row lists as Python `set`s: unordered and collapsing
duplicate rows (`set(a) == set(b)`). -/
def rowSetEqb (a b : List Row) : Bool :=
  a.all (fun r => b.contains r) && b.all (fun r => a.contains r)

/-- Whether an execution outcome is a row list. -/
def ExecResult.isOk : ExecResult → Bool
  | .ok _ => true
  | .err _ => false

/- ----------------------------------------------------------------------
`SQLMetaInfo.execution_result` (src/workflow/sql_meta_info.py, lines 25-38).

The pydantic private attribute `_execution_result` defaults to `[]` and may
hold either a row list or the string `LAZY_RESULT_TOKEN` (written by the
setter when a stored result exceeds 50000 rows).  The property getter:
  * if the cache equals `[]` it executes the SQL (a `FunctionTimedOut`
    is caught and turned into `[]`), stores the result and returns it;
  * if the cache holds the lazy token it re-executes and returns the fresh
    rows without changing the cache;
  * otherwise it returns the cached rows.
Exceptions other than the timeout propagate to the caller without
mutating the cache.
---------------------------------------------------------------------- -/

/-- The `_execution_result` private attribute of `SQLMetaInfo`: a cached
row list or the `LAZY_RESULT_TOKEN` marker. -/
inductive CachedResult where
  | rows (rs : List Row)
  | lazyMarker
deriving DecidableEq, Repr

/-- One access to the `execution_result` property.  `dbExec` is the row
list the executor would produce for this candidate's SQL (with a timeout
already folded to `[]`, as the getter does).  Returns the value handed to
the caller, the cache afterwards, and whether the executor was called. -/
def accessExecutionResult (dbExec : List Row) :
    CachedResult → List Row × CachedResult × Bool
  | .rows [] => (dbExec, .rows dbExec, true)
  | .rows (r :: rs) => (r :: rs, .rows (r :: rs), false)
  | .lazyMarker => (dbExec, .lazyMarker, true)

/- ----------------------------------------------------------------------
`_clean_sql` (src/database_utils/execution.py, lines 56-66):
`sql.replace('\n', ' ').replace('"', "'").strip("`.")`.
---------------------------------------------------------------------- -/

/-- The newline character. -/
def newlineChar : Char := Char.ofNat 10

/-- The double-quote character. -/
def dquoteChar : Char := Char.ofNat 34

/-- The single-quote character. -/
def squoteChar : Char := Char.ofNat 39

/-- The backtick character. -/
def backtickChar : Char := Char.ofNat 96

/-- `replace('\n', ' ')` on one character. -/
def replaceNewline (c : Char) : Char := if c = newlineChar then ' ' else c

/-- `replace('"', "'")` on one character. -/
def replaceDquote (c : Char) : Char := if c = dquoteChar then squoteChar else c

/-- The cutset of Python `strip("`.")`. -/
def stripCutset : List Char := [backtickChar, '.']

/-- Python `str.strip(cutset)`: remove all leading and trailing characters
belonging to the cutset. -/
def pyStrip (cutset : List Char) (s : List Char) : List Char :=
  ((s.dropWhile (fun c => cutset.contains c)).reverse.dropWhile
    (fun c => cutset.contains c)).reverse

/-- `_clean_sql` from src/database_utils/execution.py: replace newlines by
spaces, double quotes by single quotes, then strip leading and trailing
backticks and dots. -/
def _clean_sql (sql : String) : String :=
  String.mk (pyStrip stripCutset ((sql.data.map replaceNewline).map replaceDquote))

/- ----------------------------------------------------------------------
`_compare_sqls_outcomes` and `compare_sqls`
(src/database_utils/execution.py, lines 166-214).

`exec` is the database oracle: the behaviour of `execute_sql(db_path, s)`
for each SQL string `s`.  `metaTimeout` models `func_timeout` expiring
(`FunctionTimedOut`), which aborts the whole comparison.
---------------------------------------------------------------------- -/

/-- Result dictionary of `compare_sqls`: `{'exec_res': ..., 'exec_err': ...}`. -/
structure CompareOutcome where
  exec_res : Nat
  exec_err : String
deriving DecidableEq, Repr

/-- `_compare_sqls_outcomes`: execute the predicted SQL, then the ground
truth SQL, and compare the two row lists as Python sets; any exception
propagates (re-raised after logging). -/
def _compare_sqls_outcomes (exec : String → ExecResult)
    (predicted_sql ground_truth_sql : String) : PyResult Nat :=
  match exec predicted_sql with
  | .err e => .raise e
  | .ok predicted_res =>
    match exec ground_truth_sql with
    | .err e => .raise e
    | .ok ground_truth_res =>
      .ok (if rowSetEqb predicted_res ground_truth_res then 1 else 0)

/-- `compare_sqls`: cleans the predicted SQL, runs the comparison under
`func_timeout`, and maps the outcome to `{exec_res, exec_err}`:
`FunctionTimedOut` gives `(0, "timeout")`, any other exception gives
`(0, str(e))`, result `0` gives `(0, "incorrect answer")` and result `1`
gives `(1, "--")`. -/
def compare_sqls (exec : String → ExecResult) (metaTimeout : Bool)
    (predicted_sql ground_truth_sql : String) : CompareOutcome :=
  let cleaned := _clean_sql predicted_sql
  if metaTimeout then { exec_res := 0, exec_err := "timeout" }
  else
    match _compare_sqls_outcomes exec cleaned ground_truth_sql with
    | .ok res =>
        { exec_res := res, exec_err := if res = 0 then "incorrect answer" else "--" }
    | .raise e => { exec_res := 0, exec_err := e }

/- ----------------------------------------------------------------------
`get_execution_status` (src/database_utils/execution.py, lines 277-306).
---------------------------------------------------------------------- -/

/-- The `ExecutionStatus` enumeration of src/database_utils/execution.py. -/
inductive ExecutionStatus where
  | SYNTACTICALLY_CORRECT
  | EMPTY_RESULT
  | NONE_RESULT
  | ZERO_COUNT_RESULT
  | ALL_NONE_RESULT
  | SYNTACTICALLY_INCORRECT
deriving DecidableEq, Repr

/-- Classification of a fresh execution inside `get_execution_status`:
exceptions (including the timeout) give `SYNTACTICALLY_INCORRECT`, an
empty row list gives `EMPTY_RESULT`, anything else
`SYNTACTICALLY_CORRECT`. -/
def classifyFreshExecution : ExecResult → ExecutionStatus
  | .err _ => .SYNTACTICALLY_INCORRECT
  | .ok [] => .EMPTY_RESULT
  | .ok (_ :: _) => .SYNTACTICALLY_CORRECT

/-- `get_execution_status`: `freshExec` is what `execute_sql(db_path, sql,
"all")` would produce; `execution_result` is the optionally supplied rows
(`None` maps to `none`).  The Python guard `if not execution_result`
re-executes both when the argument is `None` and when it is `[]`.  Returns
the status and whether the SQL was re-executed. -/
def get_execution_status (freshExec : ExecResult)
    (execution_result : Option (List Row)) : ExecutionStatus × Bool :=
  match execution_result with
  | none => (classifyFreshExecution freshExec, true)
  | some [] => (classifyFreshExecution freshExec, true)
  | some (_ :: _) => (.SYNTACTICALLY_CORRECT, false)

/- ----------------------------------------------------------------------
Candidate records and result-based clustering.

`SQLMetaInfo` (src/workflow/sql_meta_info.py) is reduced to the two fields
the clustering and selection code observes: the SQL text and the outcome
of accessing `execution_result` (which either yields a row list or raises
with some message).
---------------------------------------------------------------------- -/

/-- A candidate record as seen by the clustering and selection code. -/
structure SQLMetaInfo where
  SQL : String
  execResult : ExecResult
deriving DecidableEq, Repr

/-- Python-dict clustering, generic in the key type: `addToClusterBy eqk
cs key q` models `clusters[key].append(q)` with creation of a fresh entry
when no stored key tests equal (under `eqk`) to `key`.  Insertion order of
keys and of members is preserved, as in a Python `dict`. -/
def addToClusterBy {κ α : Type} (eqk : κ → κ → Bool) :
    List (κ × List α) → κ → α → List (κ × List α)
  | [], key, q => [(key, [q])]
  | (k, ms) :: rest, key, q =>
    if eqk k key then (k, ms ++ [q]) :: rest
    else (k, ms) :: addToClusterBy eqk rest key q

/-- Python-dict lookup under the key equality `eqk`: the first entry whose
stored key tests equal to `key`. -/
def findClusterBy {κ α : Type} (eqk : κ → κ → Bool) :
    List (κ × List α) → κ → Option (List α)
  | [], _ => none
  | (k, ms) :: rest, key => if eqk k key then some ms else findClusterBy eqk rest key

/-- The clustering fingerprint of a (successfully executed) candidate:
`repr(query.execution_result)` in Python. -/
def clusteringFingerprint (rs : List Row) : String := pyReprRows rs

/-- One step of `Evaluate.execution_based_clustering`
(src/workflow/agents/unit_tester/tool_kit/evaluate.py, lines 185-202): a
candidate whose `execution_result` raises is skipped (`continue`);
otherwise it is appended to the cluster keyed by the `repr` of its result
list. -/
def evaluateClusterStep (cs : List (String × List SQLMetaInfo))
    (q : SQLMetaInfo) : List (String × List SQLMetaInfo) :=
  match q.execResult with
  | .err _ => cs
  | .ok rs => addToClusterBy (fun a b => a == b) cs (clusteringFingerprint rs) q

/-- `Evaluate.execution_based_clustering`: partition the candidates by the
`repr` of their execution result; candidates whose result access raises
are dropped. -/
def execution_based_clustering (candidate_queries : List SQLMetaInfo) :
    List (String × List SQLMetaInfo) :=
  candidate_queries.foldl evaluateClusterStep []

/-- The error message of a failed `execution_result` access (used by
`GenerateUnitTest.execution_based_clustering` to build its `exceptions`
list); `""` is never consulted on the `ok` side. -/
def errText : ExecResult → String
  | .err e => e
  | .ok _ => ""

/-- One step of `GenerateUnitTest.execution_based_clustering`
(src/workflow/agents/unit_tester/tool_kit/generate_unit_test.py, lines
77-98): like the `Evaluate` variant, but the error text of each failing
candidate is appended to an `exceptions` accumulator. -/
def generateClusterStep (acc : List (String × List SQLMetaInfo) × List String)
    (q : SQLMetaInfo) : List (String × List SQLMetaInfo) × List String :=
  match q.execResult with
  | .err e => (acc.1, acc.2 ++ [e])
  | .ok rs => (addToClusterBy (fun a b => a == b) acc.1 (clusteringFingerprint rs) q, acc.2)

/-- `GenerateUnitTest.execution_based_clustering`: as the `Evaluate`
variant, except that when no candidate produced a cluster (all failed),
all candidates are placed in a single cluster keyed by the newline-joined
error texts. -/
def execution_based_clustering_gen (candidate_queries : List SQLMetaInfo) :
    List (String × List SQLMetaInfo) :=
  let acc := candidate_queries.foldl generateClusterStep ([], [])
  if acc.1.isEmpty then [(String.intercalate "\n" acc.2, candidate_queries)]
  else acc.1

/- ----------------------------------------------------------------------
Python `max(xs, key=f)` / `min(xs, key=f)` over a non-empty list: scan
keeping the first extremal element.
---------------------------------------------------------------------- -/

/-- `max(acc :: xs, key=f)` in Python: the first element with maximal
measure (a later element replaces the current one only when strictly
greater). -/
def pyMaxBy {α : Type} (f : α → Nat) (acc : α) : List α → α
  | [] => acc
  | x :: rest => pyMaxBy f (if f acc < f x then x else acc) rest

/-- `min(acc :: xs, key=f)` in Python: the first element with minimal
measure. -/
def pyMinBy {α : Type} (f : α → Nat) (acc : α) : List α → α
  | [] => acc
  | x :: rest => pyMinBy f (if f x < f acc then x else acc) rest

/- ----------------------------------------------------------------------
`validate_sql_query` and `aggregate_sqls`
(src/database_utils/execution.py, lines 216-267).

`validate_sql_query(db_path, sql)` returns `{"SQL": sql, "RESULT": rows,
"STATUS": "OK"}` on success and `{"SQL": sql, "RESULT": str(e), "STATUS":
"ERROR"}` on any exception; this is exactly the `exec` oracle outcome, so
the validation step is represented by the oracle directly.  (It fetches at
most `max_returned_rows = 30` rows; the oracle abstracts the rows
produced.)  `aggregate_sqls` clusters the `"OK"` results by
`frozenset(tuple(row) for row in result)` — i.e. keys compare as
unordered duplicate-collapsing row sets — then returns the shortest SQL
of the largest cluster, or `sqls[0]` when no cluster exists.
---------------------------------------------------------------------- -/

/-- The cluster dictionary built by `aggregate_sqls`: keys are frozensets
of rows (represented by the first-seen row list, compared with
`rowSetEqb`), values the SQL strings in insertion order. -/
def aggClusters (exec : String → ExecResult) (sqls : List String) :
    List (List Row × List String) :=
  sqls.foldl
    (fun cs s =>
      match exec s with
      | .ok r => addToClusterBy rowSetEqb cs r s
      | .err _ => cs) []

/-- `aggregate_sqls`: validate every SQL, cluster the successful ones by
result set, and return the shortest member of the largest cluster
(Python `max`/`min` pick the first extremal element); when no query
validates, return `sqls[0]` (modelled as `headD ""`; the Python code
raises `IndexError` on an empty input list). -/
def aggregate_sqls (exec : String → ExecResult) (sqls : List String) : String :=
  match (aggClusters exec sqls).map Prod.snd with
  | [] => sqls.headD ""
  | c :: cs =>
    match pyMaxBy List.length c cs with
    | [] => sqls.headD ""
    | s :: ss => pyMinBy String.length s ss

/- ----------------------------------------------------------------------
`Evaluate._run` (src/workflow/agents/unit_tester/tool_kit/evaluate.py,
lines 25-103) — the Test Scorer.

The judging of all unit tests is one batched `async_llm_chain_call`; each
individual call that fails inside the worker pool is converted to `None`
by `threading_utils._threaded`, so the response list holds one
`Option`al score row per test.  If the batched call itself raises, the
surrounding `try` replaces the whole response with `[]`.  The score-matrix
loop `comparison_matrix.append(item["scores"])` and the score summation
run outside that `try`, so a `None` entry raises `TypeError` and an empty
matrix raises `IndexError` on `comparison_matrix[0]`; both abort `_run`
(the `Tool.__call__` wrapper then records an error and no candidate is
selected).
---------------------------------------------------------------------- -/

/-- `for item in response: comparison_matrix.append(item["scores"])`: a
`None` entry (an individual judging call that failed) raises `TypeError`. -/
def buildMatrix : List (Option (List Nat)) → PyResult (List (List Nat))
  | [] => .ok []
  | none :: _ => .raise "TypeError: NoneType object is not subscriptable"
  | some row :: rest =>
    match buildMatrix rest with
    | .ok m => .ok (row :: m)
    | .raise e => .raise e

/-- `scores = [sum([score[index] for score in comparison_matrix]) for index
in range(len(comparison_matrix[0]))]`: sums each column; a row shorter
than the first raises `IndexError`. -/
def columnSums (matrix : List (List Nat)) (width : Nat) : PyResult (List Nat) :=
  if matrix.all (fun row => width ≤ row.length) then
    .ok ((List.range width).map (fun i => (matrix.map (fun row => row.getD i 0)).sum))
  else .raise "IndexError: list index out of range"

/-- `[candidates[index] for index, score in enumerate(scores) if score ==
max_score]`, starting at index `i`: collects the candidates at the
indices whose score equals `maxScore`; an index beyond the candidate list
raises `IndexError`. -/
def bestCandidatesAux (candidates : List SQLMetaInfo) (maxScore : Nat) :
    Nat → List Nat → PyResult (List SQLMetaInfo)
  | _, [] => .ok []
  | i, s :: rest =>
    if s = maxScore then
      match candidates[i]? with
      | none => .raise "IndexError: list index out of range"
      | some c =>
        match bestCandidatesAux candidates maxScore (i + 1) rest with
        | .ok tail => .ok (c :: tail)
        | .raise e => .raise e
    else bestCandidatesAux candidates maxScore (i + 1) rest

/-- The tail of `pick_the_best_candidate`: `if len(best_candidates) == 1`
return it; otherwise return the first best candidate belonging to the
largest cluster, or failing that `best_candidates[0]` (an `IndexError`
when the best list is empty). -/
def chooseBest (best largestMembers : List SQLMetaInfo) : PyResult SQLMetaInfo :=
  match best with
  | [b] => .ok b
  | [] => .raise "IndexError: list index out of range"
  | b :: tail =>
    match (b :: tail).find? (fun c2 => largestMembers.contains c2) with
    | some c2 => .ok c2
    | none => .ok b

/-- `Evaluate.pick_the_best_candidate`: the largest cluster is the first
cluster with the most members; `max_score` the maximum score; among the
candidates achieving it, a singleton is returned directly, otherwise the
first one belonging to the largest cluster, otherwise the first one.
Python raises `ValueError` on `max` of an empty dict or score list. -/
def pick_the_best_candidate (scores : List Nat) (candidates : List SQLMetaInfo)
    (candidate_clusters : List (String × List SQLMetaInfo)) : PyResult SQLMetaInfo :=
  match candidate_clusters.map Prod.snd with
  | [] => .raise "ValueError: max() arg is an empty sequence"
  | c :: cs =>
    let largestMembers := pyMaxBy List.length c cs
    match scores with
    | [] => .raise "ValueError: max() arg is an empty sequence"
    | s :: ss =>
      let maxScore := pyMaxBy (fun n => n) s ss
      match bestCandidatesAux candidates maxScore 0 scores with
      | .raise e => .raise e
      | .ok best => chooseBest best largestMembers

/-- `Evaluate.self_consistency`: the first member of the cluster with the
most members (the majority-consensus candidate). -/
def self_consistency (candidate_clusters : List (String × List SQLMetaInfo)) :
    PyResult SQLMetaInfo :=
  match candidate_clusters.map Prod.snd with
  | [] => .raise "ValueError: max() arg is an empty sequence"
  | c :: cs =>
    match pyMaxBy List.length c cs with
    | [] => .raise "IndexError: list index out of range"
    | m :: _ => .ok m

/-- The scoring part of `Evaluate._run`.  `target_SQL_meta_infos` is the
candidate list under evaluation, `unit_tests` the synthesized tests
(`state.unit_tests["unit_test_generation"]`), and `batch` the outcome of
the batched judging call: `none` when the whole call raised (caught,
response becomes `[]`), otherwise one optional score row per test
(`none` entries are individual calls that failed).  Returns the selected
candidate together with the final `scores` and `comparison_matrix`, or
the exception aborting `_run`.  With no candidate the code appends the
placeholder string `"SELECT * FROM table_name"` (modelled as a candidate
with that SQL); with one candidate, or zero unit tests, it selects the
first candidate with score `[1]` and matrix `[[1]]` without judging. -/
def evaluateRun (target_SQL_meta_infos : List SQLMetaInfo)
    (unit_tests : List String) (batch : Option (List (Option (List Nat)))) :
    PyResult (SQLMetaInfo × List Nat × List (List Nat)) :=
  match target_SQL_meta_infos with
  | [] => .ok (⟨"SELECT * FROM table_name", .ok []⟩, [0], [[0]])
  | [c] => .ok (c, [1], [[1]])
  | c0 :: c1 :: rest =>
    if unit_tests.length = 0 then .ok (c0, [1], [[1]])
    else
      let cands := c0 :: c1 :: rest
      let candidates_clusters := execution_based_clustering cands
      let response : List (Option (List Nat)) := batch.getD []
      match buildMatrix response with
      | .raise e => .raise e
      | .ok matrix =>
        match matrix with
        | [] => .raise "IndexError: list index out of range"
        | row0 :: _ =>
          match columnSums matrix row0.length with
          | .raise e => .raise e
          | .ok scores =>
            match pick_the_best_candidate scores cands candidates_clusters with
            | .raise e => .raise e
            | .ok best => .ok (best, scores, matrix)

/- ----------------------------------------------------------------------
`GenerateUnitTest._run`
(src/workflow/agents/unit_tester/tool_kit/generate_unit_test.py, lines
10-77) — the Discriminative Test Synthesizer.
---------------------------------------------------------------------- -/

/-- The fixed sentinel test of `HARD_CODES_TEST_CASES`. -/
def sentinelTest : String :=
  "Only the best answer from the set of candidates that most accurately answers the question, given the database schema and hint should pass this test."

/-- The fixed sentinel list appended after every successful synthesis. -/
def HARD_CODES_TEST_CASES : List String := [sentinelTest]

/-- The default `unit_test_count` of `GenerateUnitTest.__init__`; it is
passed to the model prompt as `UNIT_TEST_CAP` but never enforced on the
returned tests. -/
def default_unit_test_count : Nat := 5

/-- The test-sequence production of `GenerateUnitTest._run`: with at most
one candidate, or exactly one cluster, the unit-test list is set to `[]`;
otherwise every sampled model response's `unit_tests` are concatenated
(in sample order) and the sentinel list is appended.  `samples` holds the
parsed `unit_tests` of each successful sample of the model call; the
configured cap (`unit_test_count`) does not appear: it only decorates the
prompt. -/
def generate_unit_test_run (target_SQL_meta_infos : List SQLMetaInfo)
    (samples : List (List String)) : List String :=
  if target_SQL_meta_infos.length ≤ 1 then []
  else if (execution_based_clustering_gen target_SQL_meta_infos).length = 1 then []
  else (samples.foldl (fun acc s => acc ++ s) []) ++ HARD_CODES_TEST_CASES

/- ----------------------------------------------------------------------
Helper lemmas about the dict-clustering operations.
---------------------------------------------------------------------- -/

/-- `rowSetEqb` is reflexive. -/
theorem rowSetEqb_refl (a : List Row) : rowSetEqb a a = true := by
  simp [rowSetEqb, List.all_eq_true]

theorem addToClusterBy_ne_nil {κ α : Type} (eqk : κ → κ → Bool)
    (cs : List (κ × List α)) (key : κ) (q : α) :
    addToClusterBy eqk cs key q ≠ [] := by
  cases cs with
  | nil => simp [addToClusterBy]
  | cons p rest =>
    obtain ⟨k, ms⟩ := p
    cases h : eqk k key <;> simp [addToClusterBy, h]

theorem addToClusterBy_find_self {κ α : Type} (eqk : κ → κ → Bool)
    (cs : List (κ × List α)) (key : κ) (q : α) (hrefl : eqk key key = true) :
    findClusterBy eqk (addToClusterBy eqk cs key q) key =
      some (((findClusterBy eqk cs key).getD []) ++ [q]) := by
  induction cs with
  | nil => simp [addToClusterBy, findClusterBy, hrefl]
  | cons p rest ih =>
    obtain ⟨k, ms⟩ := p
    cases h : eqk k key with
    | true => simp [addToClusterBy, findClusterBy, h]
    | false => simp [addToClusterBy, findClusterBy, h, ih]

theorem addToClusterBy_find_preserve {κ α : Type} (eqk : κ → κ → Bool)
    (cs : List (κ × List α)) (key key' : κ) (q : α) (ms : List α)
    (hfind : findClusterBy eqk cs key' = some ms) :
    findClusterBy eqk (addToClusterBy eqk cs key q) key' = some ms ∨
      findClusterBy eqk (addToClusterBy eqk cs key q) key' = some (ms ++ [q]) := by
  induction cs with
  | nil => simp [findClusterBy] at hfind
  | cons p rest ih =>
    obtain ⟨k, ms0⟩ := p
    cases h' : eqk k key' with
    | true =>
      rw [findClusterBy, h'] at hfind
      simp only [if_pos rfl] at hfind
      cases h : eqk k key with
      | true =>
        right
        simp [addToClusterBy, findClusterBy, h, h']
        exact (Option.some_inj.mp hfind) ▸ rfl
      | false =>
        left
        simp [addToClusterBy, findClusterBy, h, h']
        exact Option.some_inj.mp hfind
    | false =>
      rw [findClusterBy, h'] at hfind
      simp only [Bool.false_eq_true, if_false] at hfind
      cases h : eqk k key with
      | true =>
        left
        simpa [addToClusterBy, findClusterBy, h, h'] using hfind
      | false =>
        simpa [addToClusterBy, findClusterBy, h, h'] using ih hfind

theorem addToClusterBy_mem_entry {κ α : Type} (eqk : κ → κ → Bool)
    (cs : List (κ × List α)) (key k : κ) (q : α) (ms : List α)
    (hmem : (k, ms) ∈ addToClusterBy eqk cs key q) :
    (k, ms) ∈ cs ∨ (∃ ms0, (k, ms0) ∈ cs ∧ ms = ms0 ++ [q]) ∨ (k = key ∧ ms = [q]) := by
  induction cs with
  | nil =>
    simp [addToClusterBy] at hmem
    exact Or.inr (Or.inr ⟨hmem.1, hmem.2⟩)
  | cons p rest ih =>
    obtain ⟨k0, ms0⟩ := p
    cases h : eqk k0 key with
    | true =>
      rw [addToClusterBy, if_pos h] at hmem
      rcases List.mem_cons.mp hmem with hhd | htl
      · rw [Prod.mk.injEq] at hhd
        obtain ⟨hk, hms⟩ := hhd
        subst hk
        exact Or.inr (Or.inl ⟨ms0, List.mem_cons_self _ _, hms⟩)
      · exact Or.inl (List.mem_cons_of_mem _ htl)
    | false =>
      rw [addToClusterBy, if_neg (by simp [h])] at hmem
      rcases List.mem_cons.mp hmem with hhd | htl
      · exact Or.inl (hhd ▸ List.mem_cons_self _ _)
      · rcases ih htl with h1 | h2 | h3
        · exact Or.inl (List.mem_cons_of_mem _ h1)
        · obtain ⟨ms1, hms1, heq⟩ := h2
          exact Or.inr (Or.inl ⟨ms1, List.mem_cons_of_mem _ hms1, heq⟩)
        · exact Or.inr (Or.inr h3)

/- ----------------------------------------------------------------------
Lemmas about Python first-extremum `max`/`min` scans.
---------------------------------------------------------------------- -/

theorem pyMaxBy_mem {α : Type} (f : α → Nat) (xs : List α) :
    ∀ acc : α, pyMaxBy f acc xs = acc ∨ pyMaxBy f acc xs ∈ xs := by
  induction xs with
  | nil => exact fun acc => Or.inl rfl
  | cons x rest ih =>
    intro acc
    rw [pyMaxBy]
    by_cases h : f acc < f x
    · rw [if_pos h]
      rcases ih x with h1 | h2
      · right; rw [h1]; exact List.mem_cons_self _ _
      · exact Or.inr (List.mem_cons_of_mem _ h2)
    · rw [if_neg h]
      rcases ih acc with h1 | h2
      · exact Or.inl h1
      · exact Or.inr (List.mem_cons_of_mem _ h2)

theorem pyMaxBy_acc_le {α : Type} (f : α → Nat) (xs : List α) :
    ∀ acc : α, f acc ≤ f (pyMaxBy f acc xs) := by
  induction xs with
  | nil => exact fun acc => Nat.le_refl _
  | cons x rest ih =>
    intro acc
    rw [pyMaxBy]
    by_cases h : f acc < f x
    · rw [if_pos h]; exact Nat.le_trans (Nat.le_of_lt h) (ih x)
    · rw [if_neg h]; exact ih acc

theorem pyMaxBy_le {α : Type} (f : α → Nat) (xs : List α) :
    ∀ (acc y : α), (y = acc ∨ y ∈ xs) → f y ≤ f (pyMaxBy f acc xs) := by
  induction xs with
  | nil =>
    intro acc y hy
    rcases hy with rfl | h
    · exact Nat.le_refl _
    · simp at h
  | cons x rest ih =>
    intro acc y hy
    rw [pyMaxBy]
    rcases hy with rfl | hmem
    · by_cases h : f y < f x
      · rw [if_pos h]
        exact Nat.le_trans (Nat.le_of_lt h) (pyMaxBy_acc_le f rest x)
      · rw [if_neg h]
        exact pyMaxBy_acc_le f rest y
    · rcases List.mem_cons.mp hmem with rfl | hrest
      · by_cases h : f acc < f y
        · rw [if_pos h]
          exact pyMaxBy_acc_le f rest y
        · rw [if_neg h]
          exact Nat.le_trans (Nat.le_of_not_lt h) (pyMaxBy_acc_le f rest acc)
      · exact ih _ y (Or.inr hrest)

theorem pyMinBy_mem {α : Type} (f : α → Nat) (xs : List α) :
    ∀ acc : α, pyMinBy f acc xs = acc ∨ pyMinBy f acc xs ∈ xs := by
  induction xs with
  | nil => exact fun acc => Or.inl rfl
  | cons x rest ih =>
    intro acc
    rw [pyMinBy]
    by_cases h : f x < f acc
    · rw [if_pos h]
      rcases ih x with h1 | h2
      · right; rw [h1]; exact List.mem_cons_self _ _
      · exact Or.inr (List.mem_cons_of_mem _ h2)
    · rw [if_neg h]
      rcases ih acc with h1 | h2
      · exact Or.inl h1
      · exact Or.inr (List.mem_cons_of_mem _ h2)

theorem pyMinBy_acc_le {α : Type} (f : α → Nat) (xs : List α) :
    ∀ acc : α, f (pyMinBy f acc xs) ≤ f acc := by
  induction xs with
  | nil => exact fun acc => Nat.le_refl _
  | cons x rest ih =>
    intro acc
    rw [pyMinBy]
    by_cases h : f x < f acc
    · rw [if_pos h]; exact Nat.le_trans (ih x) (Nat.le_of_lt h)
    · rw [if_neg h]; exact ih acc

theorem pyMinBy_le {α : Type} (f : α → Nat) (xs : List α) :
    ∀ (acc y : α), (y = acc ∨ y ∈ xs) → f (pyMinBy f acc xs) ≤ f y := by
  induction xs with
  | nil =>
    intro acc y hy
    rcases hy with rfl | h
    · exact Nat.le_refl _
    · simp at h
  | cons x rest ih =>
    intro acc y hy
    rw [pyMinBy]
    rcases hy with rfl | hmem
    · by_cases h : f x < f y
      · rw [if_pos h]
        exact Nat.le_trans (pyMinBy_acc_le f rest x) (Nat.le_of_lt h)
      · rw [if_neg h]
        exact pyMinBy_acc_le f rest y
    · rcases List.mem_cons.mp hmem with rfl | hrest
      · by_cases h : f y < f acc
        · rw [if_pos h]
          exact pyMinBy_acc_le f rest y
        · rw [if_neg h]
          exact Nat.le_trans (pyMinBy_acc_le f rest acc) (Nat.le_of_not_lt h)
      · exact ih _ y (Or.inr hrest)

/- ----------------------------------------------------------------------
Invariants of `Evaluate.execution_based_clustering`.
---------------------------------------------------------------------- -/

theorem evaluate_fold_preserve (qs : List SQLMetaInfo) :
    ∀ (cs : List (String × List SQLMetaInfo)) (key : String)
      (ms : List SQLMetaInfo) (q : SQLMetaInfo),
      findClusterBy (fun a b => a == b) cs key = some ms → q ∈ ms →
      ∃ ms', findClusterBy (fun a b => a == b) (qs.foldl evaluateClusterStep cs) key = some ms' ∧
        q ∈ ms' := by
  induction qs with
  | nil => exact fun cs key ms q hf hq => ⟨ms, hf, hq⟩
  | cons p rest ih =>
    intro cs key ms q hf hq
    rw [List.foldl_cons]
    cases hp : p.execResult with
    | err e =>
      have hstep : evaluateClusterStep cs p = cs := by
        simp [evaluateClusterStep, hp]
      rw [hstep]
      exact ih cs key ms q hf hq
    | ok rs =>
      have hstep : evaluateClusterStep cs p =
          addToClusterBy (fun a b => a == b) cs (clusteringFingerprint rs) p := by
        simp [evaluateClusterStep, hp]
      rw [hstep]
      rcases addToClusterBy_find_preserve (fun a b => a == b) cs
          (clusteringFingerprint rs) key p ms hf with h1 | h2
      · exact ih _ key ms q h1 hq
      · exact ih _ key (ms ++ [p]) q h2 (List.mem_append_left _ hq)

theorem evaluate_fold_mem (qs : List SQLMetaInfo) :
    ∀ (cs : List (String × List SQLMetaInfo)) (q : SQLMetaInfo) (r : List Row),
      q ∈ qs → q.execResult = .ok r →
      ∃ ms, findClusterBy (fun a b => a == b) (qs.foldl evaluateClusterStep cs)
          (clusteringFingerprint r) = some ms ∧ q ∈ ms := by
  induction qs with
  | nil => intro cs q r hq; simp at hq
  | cons p rest ih =>
    intro cs q r hq hok
    rcases List.mem_cons.mp hq with rfl | hrest
    · rw [List.foldl_cons]
      have hstep : evaluateClusterStep cs q =
          addToClusterBy (fun a b => a == b) cs (clusteringFingerprint r) q := by
        simp [evaluateClusterStep, hok]
      rw [hstep]
      have hself := addToClusterBy_find_self (fun a b => a == b) cs
        (clusteringFingerprint r) q (beq_self_eq_true _)
      exact evaluate_fold_preserve rest _ _ _ q hself (List.mem_append_right _ (by simp))
    · rw [List.foldl_cons]
      exact ih _ q r hrest hok

theorem evaluate_fold_members_ok (qs : List SQLMetaInfo) :
    ∀ cs : List (String × List SQLMetaInfo),
      (∀ k ms, (k, ms) ∈ cs → ∀ c ∈ ms, c.execResult.isOk = true) →
      ∀ k ms, (k, ms) ∈ qs.foldl evaluateClusterStep cs → ∀ c ∈ ms, c.execResult.isOk = true := by
  induction qs with
  | nil => exact fun cs h => h
  | cons p rest ih =>
    intro cs h k ms hmem c hc
    rw [List.foldl_cons] at hmem
    refine ih (evaluateClusterStep cs p) ?_ k ms hmem c hc
    intro k1 ms1 hmem1 c1 hc1
    cases hp : p.execResult with
    | err e =>
      rw [show evaluateClusterStep cs p = cs by simp [evaluateClusterStep, hp]] at hmem1
      exact h k1 ms1 hmem1 c1 hc1
    | ok rs =>
      rw [show evaluateClusterStep cs p =
          addToClusterBy (fun a b => a == b) cs (clusteringFingerprint rs) p by
        simp [evaluateClusterStep, hp]] at hmem1
      rcases addToClusterBy_mem_entry _ cs _ k1 p ms1 hmem1 with h1 | h2 | h3
      · exact h k1 ms1 h1 c1 hc1
      · obtain ⟨ms0, hms0, rfl⟩ := h2
        rcases List.mem_append.mp hc1 with hl | hr
        · exact h k1 ms0 hms0 c1 hl
        · rw [List.mem_singleton.mp hr]; simp [ExecResult.isOk, hp]
      · rw [h3.2] at hc1
        rw [List.mem_singleton.mp hc1]; simp [ExecResult.isOk, hp]

theorem evaluate_fold_eq_nil (qs : List SQLMetaInfo) :
    ∀ cs : List (String × List SQLMetaInfo),
      qs.foldl evaluateClusterStep cs = [] →
      cs = [] ∧ ∀ q ∈ qs, q.execResult.isOk = false := by
  induction qs with
  | nil => intro cs h; exact ⟨h, by simp⟩
  | cons p rest ih =>
    intro cs h
    rw [List.foldl_cons] at h
    obtain ⟨hstep, hrest⟩ := ih (evaluateClusterStep cs p) h
    cases hp : p.execResult with
    | err e =>
      rw [show evaluateClusterStep cs p = cs by simp [evaluateClusterStep, hp]] at hstep
      refine ⟨hstep, ?_⟩
      intro q hq
      rcases List.mem_cons.mp hq with rfl | hr
      · simp [ExecResult.isOk, hp]
      · exact hrest q hr
    | ok rs =>
      rw [show evaluateClusterStep cs p =
          addToClusterBy (fun a b => a == b) cs (clusteringFingerprint rs) p by
        simp [evaluateClusterStep, hp]] at hstep
      exact absurd hstep (addToClusterBy_ne_nil _ cs _ p)

/- ----------------------------------------------------------------------
Invariants of `GenerateUnitTest.execution_based_clustering`.
---------------------------------------------------------------------- -/

theorem generate_fold_fst (qs : List SQLMetaInfo) :
    ∀ acc : List (String × List SQLMetaInfo) × List String,
      (qs.foldl generateClusterStep acc).1 = qs.foldl evaluateClusterStep acc.1 := by
  induction qs with
  | nil => exact fun acc => rfl
  | cons p rest ih =>
    intro acc
    rw [List.foldl_cons, List.foldl_cons, ih]
    cases hp : p.execResult with
    | err e => simp [generateClusterStep, evaluateClusterStep, hp]
    | ok rs => simp [generateClusterStep, evaluateClusterStep, hp]

theorem generate_fold_all_err (qs : List SQLMetaInfo)
    (h : ∀ q ∈ qs, q.execResult.isOk = false) :
    ∀ acc : List (String × List SQLMetaInfo) × List String,
      qs.foldl generateClusterStep acc =
        (acc.1, acc.2 ++ qs.map (fun q => errText q.execResult)) := by
  induction qs with
  | nil => intro acc; simp
  | cons p rest ih =>
    intro acc
    have hp : ∃ e, p.execResult = .err e := by
      have := h p (List.mem_cons_self _ _)
      cases hcase : p.execResult with
      | ok rs => simp [ExecResult.isOk, hcase] at this
      | err e => exact ⟨e, rfl⟩
    obtain ⟨e, hpe⟩ := hp
    rw [List.foldl_cons,
      show generateClusterStep acc p = (acc.1, acc.2 ++ [e]) by
        simp [generateClusterStep, hpe],
      ih (fun q hq => h q (List.mem_cons_of_mem _ hq))]
    simp [hpe, errText]

/- ----------------------------------------------------------------------
Invariants of the clusters built by `aggregate_sqls`.
---------------------------------------------------------------------- -/

theorem aggClusters_fold_eq_nil (exec : String → ExecResult) (sqls : List String) :
    ∀ cs : List (List Row × List String),
      (sqls.foldl
        (fun cs s =>
          match exec s with
          | .ok r => addToClusterBy rowSetEqb cs r s
          | .err _ => cs) cs) = [] →
      cs = [] ∧ ∀ s ∈ sqls, (exec s).isOk = false := by
  induction sqls with
  | nil => intro cs h; exact ⟨h, by simp⟩
  | cons p rest ih =>
    intro cs h
    rw [List.foldl_cons] at h
    obtain ⟨hstep, hrest⟩ := ih _ h
    cases hp : exec p with
    | err e =>
      rw [show (match exec p with
          | .ok r => addToClusterBy rowSetEqb cs r p
          | .err _ => cs) = cs by simp [hp]] at hstep
      refine ⟨hstep, ?_⟩
      intro s hs
      rcases List.mem_cons.mp hs with rfl | hr
      · simp [ExecResult.isOk, hp]
      · exact hrest s hr
    | ok r =>
      rw [show (match exec p with
          | .ok r => addToClusterBy rowSetEqb cs r p
          | .err _ => cs) = addToClusterBy rowSetEqb cs r p by simp [hp]] at hstep
      exact absurd hstep (addToClusterBy_ne_nil _ cs _ p)

theorem aggClusters_fold_members (exec : String → ExecResult) (sqls : List String) :
    ∀ cs : List (List Row × List String),
      (∀ k ms, (k, ms) ∈ cs → ms ≠ [] ∧ ∀ s ∈ ms, s ∈ sqls) →
      (∀ s ∈ sqls, s ∈ sqls) →
      ∀ k ms, (k, ms) ∈ (sqls.foldl
        (fun cs s =>
          match exec s with
          | .ok r => addToClusterBy rowSetEqb cs r s
          | .err _ => cs) cs) → ms ≠ [] ∧ ∀ s ∈ ms, s ∈ sqls := by
  intro cs
  suffices hgen : ∀ (qs : List String) (cs : List (List Row × List String)),
      (∀ k ms, (k, ms) ∈ cs → ms ≠ [] ∧ ∀ s ∈ ms, s ∈ sqls) →
      (∀ s ∈ qs, s ∈ sqls) →
      ∀ k ms, (k, ms) ∈ (qs.foldl
        (fun cs s =>
          match exec s with
          | .ok r => addToClusterBy rowSetEqb cs r s
          | .err _ => cs) cs) → ms ≠ [] ∧ ∀ s ∈ ms, s ∈ sqls by
    exact hgen sqls cs
  intro qs
  induction qs with
  | nil => exact fun cs h _ => h
  | cons p rest ih =>
    intro cs h hsub k ms hmem
    rw [List.foldl_cons] at hmem
    refine ih _ ?_ (fun s hs => hsub s (List.mem_cons_of_mem _ hs)) k ms hmem
    intro k1 ms1 hmem1
    cases hp : exec p with
    | err e =>
      rw [show (match exec p with
          | .ok r => addToClusterBy rowSetEqb cs r p
          | .err _ => cs) = cs by simp [hp]] at hmem1
      exact h k1 ms1 hmem1
    | ok r =>
      rw [show (match exec p with
          | .ok r => addToClusterBy rowSetEqb cs r p
          | .err _ => cs) = addToClusterBy rowSetEqb cs r p by simp [hp]] at hmem1
      have hpmem : p ∈ sqls := hsub p (List.mem_cons_self _ _)
      rcases addToClusterBy_mem_entry _ cs _ k1 p ms1 hmem1 with h1 | h2 | h3
      · exact h k1 ms1 h1
      · obtain ⟨ms0, hms0, rfl⟩ := h2
        refine ⟨by simp, ?_⟩
        intro s hs
        rcases List.mem_append.mp hs with hl | hr
        · exact (h k1 ms0 hms0).2 s hl
        · rw [List.mem_singleton.mp hr]; exact hpmem
      · rw [h3.2]
        exact ⟨by simp, fun s hs => by rw [List.mem_singleton.mp hs]; exact hpmem⟩

theorem aggClusters_members (exec : String → ExecResult) (sqls : List String) :
    ∀ k ms, (k, ms) ∈ aggClusters exec sqls → ms ≠ [] ∧ ∀ s ∈ ms, s ∈ sqls := by
  intro k ms hmem
  exact aggClusters_fold_members exec sqls [] (by simp) (fun s hs => hs) k ms hmem

/- ----------------------------------------------------------------------
Lemmas about the score-matrix construction and best-candidate pick.
---------------------------------------------------------------------- -/

theorem buildMatrix_map_some (rows : List (List Nat)) :
    buildMatrix (rows.map some) = .ok rows := by
  induction rows with
  | nil => rfl
  | cons r rest ih => rw [List.map_cons, buildMatrix, ih]

theorem buildMatrix_none (resp : List (Option (List Nat))) (h : none ∈ resp) :
    buildMatrix resp = .raise "TypeError: NoneType object is not subscriptable" := by
  induction resp with
  | nil => simp at h
  | cons x rest ih =>
    cases x with
    | none => rfl
    | some row =>
      have hrest : none ∈ rest := by
        rcases List.mem_cons.mp h with habs | hr
        · exact absurd habs.symm (by simp)
        · exact hr
      rw [buildMatrix, ih hrest]

theorem columnSums_ok (matrix : List (List Nat)) (width : Nat)
    (h : ∀ row ∈ matrix, width ≤ row.length) :
    columnSums matrix width =
      .ok ((List.range width).map (fun i => (matrix.map (fun row => row.getD i 0)).sum)) := by
  rw [columnSums, if_pos]
  rw [List.all_eq_true]
  intro row hrow
  exact decide_eq_true (h row hrow)


theorem getElem?_some_of_lt {α : Type} (l : List α) (i : Nat) (h : i < l.length) :
    ∃ c, l[i]? = some c ∧ c ∈ l := by
  rw [List.getElem?_eq_getElem h]
  exact ⟨l[i], rfl, List.getElem_mem h⟩

theorem mem_of_getElem?_some {α : Type} {l : List α} {i : Nat} {c : α}
    (h : l[i]? = some c) : c ∈ l := by
  have hi : i < l.length := by
    by_contra hcon
    rw [List.getElem?_eq_none (Nat.le_of_not_lt hcon)] at h
    cases h
  rw [List.getElem?_eq_getElem hi] at h
  exact (Option.some_inj.mp h) ▸ List.getElem_mem hi

theorem bestCandidatesAux_total (candidates : List SQLMetaInfo) (maxScore : Nat) :
    ∀ (ss : List Nat) (i : Nat), i + ss.length ≤ candidates.length →
      ∃ l, bestCandidatesAux candidates maxScore i ss = .ok l := by
  intro ss
  induction ss with
  | nil => exact fun i _ => ⟨[], rfl⟩
  | cons s rest ih =>
    intro i hlen
    rw [List.length_cons] at hlen
    have hi : i < candidates.length := by omega
    obtain ⟨l, hl⟩ := ih (i + 1) (by omega)
    by_cases hs : s = maxScore
    · obtain ⟨c, hc, _⟩ := getElem?_some_of_lt candidates i hi
      refine ⟨c :: l, ?_⟩
      rw [bestCandidatesAux, if_pos hs, hc, hl]
    · refine ⟨l, ?_⟩
      rw [bestCandidatesAux, if_neg hs, hl]

theorem bestCandidatesAux_subset (candidates : List SQLMetaInfo) (maxScore : Nat) :
    ∀ (ss : List Nat) (i : Nat) (l : List SQLMetaInfo),
      bestCandidatesAux candidates maxScore i ss = .ok l →
      ∀ c ∈ l, c ∈ candidates := by
  intro ss
  induction ss with
  | nil =>
    intro i l h c hc
    rw [bestCandidatesAux] at h
    cases h
    simp at hc
  | cons s rest ih =>
    intro i l h c hc
    rw [bestCandidatesAux] at h
    by_cases hs : s = maxScore
    · rw [if_pos hs] at h
      cases hget : candidates[i]? with
      | none => rw [hget] at h; cases h
      | some c0 =>
        rw [hget] at h
        cases htail : bestCandidatesAux candidates maxScore (i + 1) rest with
        | raise e => rw [htail] at h; cases h
        | ok tail =>
          rw [htail] at h
          cases h
          rcases List.mem_cons.mp hc with rfl | hmem
          · exact mem_of_getElem?_some hget
          · exact ih (i + 1) tail htail c hmem
    · rw [if_neg hs] at h
      exact ih (i + 1) l h c hc

theorem bestCandidatesAux_ne_nil (candidates : List SQLMetaInfo) (maxScore : Nat) :
    ∀ (ss : List Nat) (i : Nat) (l : List SQLMetaInfo),
      bestCandidatesAux candidates maxScore i ss = .ok l →
      maxScore ∈ ss → l ≠ [] := by
  intro ss
  induction ss with
  | nil => intro i l _ hmem; simp at hmem
  | cons s rest ih =>
    intro i l h hmem
    rw [bestCandidatesAux] at h
    by_cases hs : s = maxScore
    · rw [if_pos hs] at h
      cases hget : candidates[i]? with
      | none => rw [hget] at h; cases h
      | some c0 =>
        rw [hget] at h
        cases htail : bestCandidatesAux candidates maxScore (i + 1) rest with
        | raise e => rw [htail] at h; cases h
        | ok tail => rw [htail] at h; cases h; simp
    · rw [if_neg hs] at h
      rcases List.mem_cons.mp hmem with heq | hr
      · exact absurd heq.symm hs
      · exact ih (i + 1) l h hr

theorem chooseBest_ok (best largestMembers : List SQLMetaInfo) (h : best ≠ []) :
    ∃ x, chooseBest best largestMembers = .ok x ∧ x ∈ best := by
  match best with
  | [] => exact absurd rfl h
  | [b] => exact ⟨b, rfl, List.mem_cons_self _ _⟩
  | b :: b2 :: tail =>
    cases hfind : (b :: b2 :: tail).find?
        (fun c2 => largestMembers.contains c2) with
    | some c2 =>
      refine ⟨c2, ?_, List.mem_of_find?_eq_some hfind⟩
      simp only [chooseBest, hfind]
    | none =>
      refine ⟨b, ?_, List.mem_cons_self _ _⟩
      simp only [chooseBest, hfind]

theorem pick_the_best_candidate_ok (scores : List Nat) (candidates : List SQLMetaInfo)
    (clusters : List (String × List SQLMetaInfo))
    (hclusters : clusters ≠ []) (hscores : scores ≠ [])
    (hlen : scores.length ≤ candidates.length) :
    ∃ b, pick_the_best_candidate scores candidates clusters = .ok b ∧ b ∈ candidates := by
  obtain ⟨⟨k0, c⟩, crest, rfl⟩ : ∃ p rest, clusters = p :: rest := by
    cases clusters with
    | nil => exact absurd rfl hclusters
    | cons p rest => exact ⟨p, rest, rfl⟩
  obtain ⟨s, ss, rfl⟩ : ∃ s ss, scores = s :: ss := by
    cases scores with
    | nil => exact absurd rfl hscores
    | cons s ss => exact ⟨s, ss, rfl⟩
  obtain ⟨l, hl⟩ := bestCandidatesAux_total candidates (pyMaxBy (fun n => n) s ss)
    (s :: ss) 0 (by simpa using hlen)
  have hmax_mem : pyMaxBy (fun n => n) s ss ∈ s :: ss := by
    rcases pyMaxBy_mem (fun n => n) ss s with h1 | h2
    · rw [h1]; exact List.mem_cons_self _ _
    · exact List.mem_cons_of_mem _ h2
  have hlne := bestCandidatesAux_ne_nil candidates _ (s :: ss) 0 l hl hmax_mem
  obtain ⟨x, hx, hxmem⟩ :=
    chooseBest_ok l (pyMaxBy List.length c (crest.map Prod.snd)) hlne
  refine ⟨x, ?_, bestCandidatesAux_subset candidates _ (s :: ss) 0 l hl x hxmem⟩
  simp only [pick_the_best_candidate, List.map_cons, hl, hx]

/- ----------------------------------------------------------------------
Claim theorems.
---------------------------------------------------------------------- -/

/-- C1 counterexample: the claim fails when the first execution
legitimately produces an empty row list.  With the cache at its default
`[]`, the first `execution_result` access executes the SQL (third
component `true`), caches `[]`, and the second access — the cache still
being the sentinel `[]` — calls the executor again. -/
theorem C1_counterexample_empty_result_reexecutes :
    (accessExecutionResult [] (CachedResult.rows [])).2.2 = true ∧
    (accessExecutionResult []
      ((accessExecutionResult [] (CachedResult.rows [])).2.1)).2.2 = true := by
  exact ⟨rfl, rfl⟩

/-- C1 (amended): accessing a Candidate Record's `result` a second time
returns the same value as the first access without executing the SQL
again, provided the first execution produced a non-empty row list; when
the first execution produces an empty row list the `[]` cache sentinel
makes every later access re-execute the SQL. -/
theorem C1_result_cached_after_nonempty_first_execution (dbExec : List Row)
    (h : dbExec ≠ []) :
    accessExecutionResult dbExec (CachedResult.rows []) =
      (dbExec, CachedResult.rows dbExec, true) ∧
    accessExecutionResult dbExec (CachedResult.rows dbExec) =
      (dbExec, CachedResult.rows dbExec, false) := by
  cases dbExec with
  | nil => exact absurd rfl h
  | cons r rs => exact ⟨rfl, rfl⟩

/-- C1 witness: the amended theorem applied to the one-row result `[[1]]`. -/
theorem C1_result_cached_witness :
    accessExecutionResult [[1]] (CachedResult.rows []) =
      ([[1]], CachedResult.rows [[1]], true) ∧
    accessExecutionResult [[1]] (CachedResult.rows [[1]]) =
      ([[1]], CachedResult.rows [[1]], false) :=
  C1_result_cached_after_nonempty_first_execution [[1]] (by decide)

/-- C9 (confirmed): `get_execution_status` treats a supplied empty row
list exactly like an absent one — both re-execute the SQL and classify
the fresh outcome — while a supplied non-empty result is classified as
`SYNTACTICALLY_CORRECT` without re-execution. -/
theorem C9_empty_supplied_result_reexecutes (freshExec : ExecResult) (rs : List Row) :
    get_execution_status freshExec none = get_execution_status freshExec (some []) ∧
    (get_execution_status freshExec none).2 = true ∧
    (get_execution_status freshExec none).1 = classifyFreshExecution freshExec ∧
    (rs ≠ [] → get_execution_status freshExec (some rs) =
      (ExecutionStatus.SYNTACTICALLY_CORRECT, false)) := by
  refine ⟨rfl, rfl, rfl, ?_⟩
  intro h
  cases rs with
  | nil => exact absurd rfl h
  | cons r rtl => rfl

/-- C9 witness: the theorem applied to a fresh one-row execution and a
supplied non-empty result. -/
theorem C9_empty_supplied_result_witness :
    get_execution_status (ExecResult.ok [[1]]) (some [[2]]) =
      (ExecutionStatus.SYNTACTICALLY_CORRECT, false) :=
  (C9_empty_supplied_result_reexecutes (ExecResult.ok [[1]]) [[2]]).2.2.2 (by decide)

/-- C8 (confirmed): `compare_sqls` rewrites only the predicted SQL — the
comparison result depends on the oracle only at the cleaned predicted
string and at the ground-truth string exactly as supplied; `_clean_sql`
turns every newline into a space and every double quote into a single
quote, leaves all other characters unchanged, strips leading/trailing
backticks and dots, and for some predicted SQL the executed query differs
from the query passed in. -/
theorem C8_only_predicted_sql_rewritten
    (e1 e2 : String → ExecResult) (mt : Bool) (pred gt : String) :
    (e1 (_clean_sql pred) = e2 (_clean_sql pred) → e1 gt = e2 gt →
      compare_sqls e1 mt pred gt = compare_sqls e2 mt pred gt) ∧
    replaceNewline newlineChar = ' ' ∧
    replaceDquote dquoteChar = squoteChar ∧
    (∀ c, c ≠ newlineChar → replaceNewline c = c) ∧
    (∀ c, c ≠ dquoteChar → replaceDquote c = c) ∧
    _clean_sql "SELECT \"name\" FROM t" = "SELECT 'name' FROM t" ∧
    _clean_sql "`SELECT 1.`" ≠ "`SELECT 1.`" ∧
    _clean_sql "`SELECT 1.`" = "SELECT 1" := by
  refine ⟨?_, by decide, by decide, ?_, ?_, by decide, by decide, by decide⟩
  · intro h1 h2
    simp only [compare_sqls, _compare_sqls_outcomes, h1, h2]
  · intro c hc
    simp [replaceNewline, hc]
  · intro c hc
    simp [replaceDquote, hc]

/-- C8 witness: the oracle-dependence part applied with two oracles that
agree on the executed strings. -/
theorem C8_only_predicted_sql_rewritten_witness :
    compare_sqls (fun _ => ExecResult.ok [[1]]) false "SELECT 1" "SELECT 1" =
      compare_sqls (fun _ => ExecResult.ok [[1]]) false "SELECT 1" "SELECT 1" :=
  (C8_only_predicted_sql_rewritten (fun _ => ExecResult.ok [[1]])
    (fun _ => ExecResult.ok [[1]]) false "SELECT 1" "SELECT 1").1 rfl rfl

/-- C3 (confirmed): the Outcome Aggregator returns `exec_res = 1` (with
`exec_err = "--"`) if and only if both queries execute and their result
sets are equal as unordered duplicate-collapsing sets; on a comparison
timeout it returns `(0, "timeout")`; when the (cleaned) predicted query
or the ground-truth query raises it returns `(0, <message>)`; and when
both execute with differing sets it returns `(0, "incorrect answer")`. -/
theorem C3_compare_sqls_outcome_classification
    (exec : String → ExecResult) (mt : Bool) (pred gt : String) :
    (compare_sqls exec mt pred gt = ⟨1, "--"⟩ ↔
      (mt = false ∧ ∃ rp rg, exec (_clean_sql pred) = .ok rp ∧ exec gt = .ok rg ∧
        rowSetEqb rp rg = true)) ∧
    (mt = true → compare_sqls exec mt pred gt = ⟨0, "timeout"⟩) ∧
    (∀ e, mt = false → exec (_clean_sql pred) = .err e →
      compare_sqls exec mt pred gt = ⟨0, e⟩) ∧
    (∀ rp e, mt = false → exec (_clean_sql pred) = .ok rp → exec gt = .err e →
      compare_sqls exec mt pred gt = ⟨0, e⟩) ∧
    (∀ rp rg, mt = false → exec (_clean_sql pred) = .ok rp → exec gt = .ok rg →
      rowSetEqb rp rg = false →
      compare_sqls exec mt pred gt = ⟨0, "incorrect answer"⟩) := by
  cases mt with
  | true =>
    refine ⟨?_, fun _ => rfl, ?_, ?_, ?_⟩
    · constructor
      · intro h
        rw [show compare_sqls exec true pred gt = ⟨0, "timeout"⟩ from rfl] at h
        have h01 : (0 : Nat) = 1 := congrArg CompareOutcome.exec_res h
        exact absurd h01 (by decide)
      · rintro ⟨h, -⟩
        exact absurd h (by decide)
    · intro e h
      exact absurd h (by decide)
    · intro rp e h
      exact absurd h (by decide)
    · intro rp rg h
      exact absurd h (by decide)
  | false =>
    cases hp : exec (_clean_sql pred) with
    | err e =>
      have hcmp : compare_sqls exec false pred gt = ⟨0, e⟩ := by
        simp [compare_sqls, _compare_sqls_outcomes, hp]
      refine ⟨?_, ?_, ?_, ?_, ?_⟩
      · constructor
        · intro h
          rw [hcmp] at h
          have h01 : (0 : Nat) = 1 := congrArg CompareOutcome.exec_res h
          exact absurd h01 (by decide)
        · rintro ⟨-, rp, rg, hrp, -, -⟩
          exact ExecResult.noConfusion hrp
      · intro h
        exact absurd h (by decide)
      · intro e2 _ hpe2
        injection hpe2 with he
        rw [hcmp, he]
      · intro rp e2 _ hrp
        exact ExecResult.noConfusion hrp
      · intro rp rg _ hrp
        exact ExecResult.noConfusion hrp
    | ok rp0 =>
      cases hg : exec gt with
      | err e =>
        have hcmp : compare_sqls exec false pred gt = ⟨0, e⟩ := by
          simp [compare_sqls, _compare_sqls_outcomes, hp, hg]
        refine ⟨?_, ?_, ?_, ?_, ?_⟩
        · constructor
          · intro h
            rw [hcmp] at h
            have h01 : (0 : Nat) = 1 := congrArg CompareOutcome.exec_res h
            exact absurd h01 (by decide)
          · rintro ⟨-, rp, rg, -, hrg, -⟩
            exact ExecResult.noConfusion hrg
        · intro h
          exact absurd h (by decide)
        · intro e2 _ hpe2
          exact ExecResult.noConfusion hpe2
        · intro rp e2 _ _ hge2
          injection hge2 with he
          rw [hcmp, he]
        · intro rp rg _ _ hrg
          exact ExecResult.noConfusion hrg
      | ok rg0 =>
        cases hset : rowSetEqb rp0 rg0 with
        | true =>
          have hcmp : compare_sqls exec false pred gt = ⟨1, "--"⟩ := by
            simp [compare_sqls, _compare_sqls_outcomes, hp, hg, hset]
          refine ⟨?_, ?_, ?_, ?_, ?_⟩
          · exact ⟨fun _ => ⟨rfl, rp0, rg0, rfl, rfl, hset⟩, fun _ => hcmp⟩
          · intro h
            exact absurd h (by decide)
          · intro e2 _ hpe2
            exact ExecResult.noConfusion hpe2
          · intro rp e2 _ _ hge2
            exact ExecResult.noConfusion hge2
          · intro rp rg _ hrp hrg hfalse
            injection hrp with hrp1
            injection hrg with hrg1
            rw [← hrp1, ← hrg1, hset] at hfalse
            exact absurd hfalse (by decide)
        | false =>
          have hcmp : compare_sqls exec false pred gt = ⟨0, "incorrect answer"⟩ := by
            simp [compare_sqls, _compare_sqls_outcomes, hp, hg, hset]
          refine ⟨?_, ?_, ?_, ?_, ?_⟩
          · constructor
            · intro h
              rw [hcmp] at h
              have h01 : (0 : Nat) = 1 := congrArg CompareOutcome.exec_res h
              exact absurd h01 (by decide)
            · rintro ⟨-, rp, rg, hrp, hrg, htrue⟩
              injection hrp with hrp1
              injection hrg with hrg1
              rw [← hrp1, ← hrg1, hset] at htrue
              exact absurd htrue (by decide)
          · intro h
            exact absurd h (by decide)
          · intro e2 _ hpe2
            exact ExecResult.noConfusion hpe2
          · intro rp e2 _ _ hge2
            exact ExecResult.noConfusion hge2
          · intro rp rg _ _ _ _
            exact hcmp

/-- C3 witness: with an oracle that answers `[[1]]` for `SELECT 1`, the
comparison of `SELECT 1` against itself yields `(1, "--")`. -/
theorem C3_compare_sqls_witness :
    compare_sqls
      (fun s => if s = "SELECT 1" then ExecResult.ok [[1]] else ExecResult.err "syntax error")
      false "SELECT 1" "SELECT 1" = ⟨1, "--"⟩ :=
  (C3_compare_sqls_outcome_classification
    (fun s => if s = "SELECT 1" then ExecResult.ok [[1]] else ExecResult.err "syntax error")
    false "SELECT 1" "SELECT 1").1.mpr
    ⟨rfl, [[1]], [[1]], by decide, by decide, by decide⟩

/-- C2 counterexample: two candidates whose result sets are equal as
unordered duplicate-collapsing sets but listed in different row order get
different `repr` fingerprints and end up in two different clusters of
`Evaluate.execution_based_clustering`. -/
theorem C2_counterexample_row_order_splits_clusters :
    rowSetEqb ([[1], [2]] : List Row) [[2], [1]] = true ∧
    clusteringFingerprint ([[1], [2]] : List Row) ≠ clusteringFingerprint [[2], [1]] ∧
    (execution_based_clustering
        [⟨"SQL_A", ExecResult.ok [[1], [2]]⟩, ⟨"SQL_B", ExecResult.ok [[2], [1]]⟩]).length = 2 ∧
    (execution_based_clustering
        [⟨"SQL_A", ExecResult.ok [[1], [2]]⟩, ⟨"SQL_B", ExecResult.ok [[2], [1]]⟩]).all
      (fun kv => !((⟨"SQL_A", ExecResult.ok [[1], [2]]⟩ : SQLMetaInfo) ∈ kv.2 ∧
          (⟨"SQL_B", ExecResult.ok [[2], [1]]⟩ : SQLMetaInfo) ∈ kv.2)) = true := by
  refine ⟨by decide, by decide, rfl, by decide⟩

/-- C2 (amended): two candidates whose execution results are equal as
row lists (same order and multiplicity) receive the same fingerprint and
are placed in the same cluster of `Evaluate.execution_based_clustering`;
equality only up to row order or duplicate multiplicity is not
sufficient. -/
theorem C2_equal_result_lists_cluster_together
    (qs : List SQLMetaInfo) (q1 q2 : SQLMetaInfo) (r : List Row)
    (h1 : q1 ∈ qs) (h2 : q2 ∈ qs)
    (hr1 : q1.execResult = .ok r) (hr2 : q2.execResult = .ok r) :
    ∃ ms, findClusterBy (fun a b => a == b) (execution_based_clustering qs)
        (clusteringFingerprint r) = some ms ∧ q1 ∈ ms ∧ q2 ∈ ms := by
  obtain ⟨ms, hms, hq1⟩ := evaluate_fold_mem qs [] q1 r h1 hr1
  obtain ⟨ms2, hms2, hq2⟩ := evaluate_fold_mem qs [] q2 r h2 hr2
  rw [hms] at hms2
  refine ⟨ms, hms, hq1, ?_⟩
  rw [Option.some_inj.mp hms2]
  exact hq2

/-- C2 witness: two candidates with the identical result list `[[1]]` end
up in the same cluster. -/
theorem C2_equal_result_lists_witness :
    ∃ ms, findClusterBy (fun a b => a == b)
        (execution_based_clustering [⟨"Q1", ExecResult.ok [[1]]⟩, ⟨"Q2", ExecResult.ok [[1]]⟩])
        (clusteringFingerprint [[1]]) = some ms ∧
      (⟨"Q1", ExecResult.ok [[1]]⟩ : SQLMetaInfo) ∈ ms ∧
      (⟨"Q2", ExecResult.ok [[1]]⟩ : SQLMetaInfo) ∈ ms :=
  C2_equal_result_lists_cluster_together
    [⟨"Q1", ExecResult.ok [[1]]⟩, ⟨"Q2", ExecResult.ok [[1]]⟩]
    ⟨"Q1", ExecResult.ok [[1]]⟩ ⟨"Q2", ExecResult.ok [[1]]⟩ [[1]]
    (by decide) (by decide) rfl rfl

/-- C5 counterexample: with zero synthesized tests and candidates
`[A, B, B2]` where `B` and `B2` share a result and `A` differs, the
majority cluster is `[B, B2]` whose first member is `B`, yet the scorer
selects `A`, the first candidate of the list. -/
theorem C5_counterexample_not_majority_cluster :
    evaluateRun [⟨"A", ExecResult.ok [[1]]⟩, ⟨"B", ExecResult.ok [[2]]⟩,
        ⟨"B2", ExecResult.ok [[2]]⟩] [] none =
      .ok (⟨"A", ExecResult.ok [[1]]⟩, [1], [[1]]) ∧
    self_consistency (execution_based_clustering
        [⟨"A", ExecResult.ok [[1]]⟩, ⟨"B", ExecResult.ok [[2]]⟩,
          ⟨"B2", ExecResult.ok [[2]]⟩]) =
      .ok ⟨"B", ExecResult.ok [[2]]⟩ ∧
    (⟨"A", ExecResult.ok [[1]]⟩ : SQLMetaInfo) ≠ ⟨"B", ExecResult.ok [[2]]⟩ := by
  refine ⟨rfl, rfl, by decide⟩

/-- C5 (amended): with at least two candidates and zero synthesized unit
tests, the Test Scorer selects the first candidate of the candidate list
(not the first member of the largest cluster), with score `[1]` and
matrix `[[1]]`, issuing no judging call. -/
theorem C5_zero_tests_selects_first_candidate
    (c0 c1 : SQLMetaInfo) (rest : List SQLMetaInfo)
    (batch : Option (List (Option (List Nat)))) :
    evaluateRun (c0 :: c1 :: rest) [] batch = .ok (c0, [1], [[1]]) := by
  rfl

/-- C6 counterexample: with the default cap `unit_test_count = 5`, a
successful model call returning six tests produces six model-generated
tests in the output — the cap is not enforced on the model output. -/
theorem C6_counterexample_cap_not_enforced :
    generate_unit_test_run [⟨"A", ExecResult.ok [[1]]⟩, ⟨"B", ExecResult.ok [[2]]⟩]
        [["t1", "t2", "t3", "t4", "t5", "t6"]] =
      ["t1", "t2", "t3", "t4", "t5", "t6"] ++ HARD_CODES_TEST_CASES ∧
    default_unit_test_count = 5 ∧
    6 > default_unit_test_count := by
  refine ⟨rfl, rfl, by decide⟩

/-- C6 (amended): when at most one candidate or exactly one cluster
exists the synthesized test sequence is empty; otherwise, on a
successful model call, it is exactly the concatenation of all sampled
model outputs — however many tests they hold, the configured cap only
decorating the prompt — followed by the fixed sentinel test, so the
sequence always ends with the sentinel. -/
theorem C6_tests_are_model_output_plus_sentinel
    (cands : List SQLMetaInfo) (samples : List (List String)) :
    ((cands.length ≤ 1 ∨ (execution_based_clustering_gen cands).length = 1) →
      generate_unit_test_run cands samples = []) ∧
    (¬ cands.length ≤ 1 → (execution_based_clustering_gen cands).length ≠ 1 →
      generate_unit_test_run cands samples =
        (samples.foldl (fun acc s => acc ++ s) []) ++ HARD_CODES_TEST_CASES ∧
      (generate_unit_test_run cands samples).getLast? = some sentinelTest) := by
  constructor
  · intro h
    by_cases h1 : cands.length ≤ 1
    · rw [generate_unit_test_run, if_pos h1]
    · rcases h with hc | hcl
      · exact absurd hc h1
      · rw [generate_unit_test_run, if_neg h1, if_pos hcl]
  · intro h1 h2
    rw [generate_unit_test_run, if_neg h1, if_neg h2]
    refine ⟨rfl, ?_⟩
    rw [show HARD_CODES_TEST_CASES = [sentinelTest] from rfl]
    exact List.getLast?_concat _

/-- C6 witness: two candidates in two clusters with a single-sample model
response of one test produce that test followed by the sentinel. -/
theorem C6_tests_plus_sentinel_witness :
    generate_unit_test_run [⟨"A", ExecResult.ok [[1]]⟩, ⟨"B", ExecResult.ok [[2]]⟩] [["t"]] =
      ([["t"]].foldl (fun acc s => acc ++ s) []) ++ HARD_CODES_TEST_CASES ∧
    (generate_unit_test_run [⟨"A", ExecResult.ok [[1]]⟩, ⟨"B", ExecResult.ok [[2]]⟩]
        [["t"]]).getLast? = some sentinelTest :=
  (C6_tests_are_model_output_plus_sentinel
    [⟨"A", ExecResult.ok [[1]]⟩, ⟨"B", ExecResult.ok [[2]]⟩] [["t"]]).2
    (by decide) (by decide)

/-- C7 counterexample: with one succeeding and one failing candidate,
both clustering variants drop the failing candidate: the partition
consists of the single cluster of the succeeding candidate, and no
cluster is keyed by the failing candidate's error text. -/
theorem C7_counterexample_failing_candidate_dropped :
    execution_based_clustering
        [⟨"G", ExecResult.ok [[1]]⟩, ⟨"B", ExecResult.err "no such table: t"⟩] =
      [("[(1,)]", [⟨"G", ExecResult.ok [[1]]⟩])] ∧
    execution_based_clustering_gen
        [⟨"G", ExecResult.ok [[1]]⟩, ⟨"B", ExecResult.err "no such table: t"⟩] =
      [("[(1,)]", [⟨"G", ExecResult.ok [[1]]⟩])] := by
  exact ⟨rfl, rfl⟩

/-- C7 (amended): a candidate whose `result` access raises is never a
member of any cluster of `Evaluate.execution_based_clustering`; in
`GenerateUnitTest.execution_based_clustering` failing candidates are
likewise dropped, except that when every candidate fails, all candidates
are placed in one single cluster keyed by the newline-join of all their
error texts. -/
theorem C7_failing_candidates_dropped_unless_all_fail (qs : List SQLMetaInfo) :
    (∀ q k ms, q.execResult.isOk = false →
      (k, ms) ∈ execution_based_clustering qs → q ∉ ms) ∧
    ((∀ q ∈ qs, q.execResult.isOk = false) →
      execution_based_clustering_gen qs =
        [(String.intercalate "\n" (qs.map (fun q => errText q.execResult)), qs)]) := by
  constructor
  · intro q k ms hq hmem hqin
    have hok := evaluate_fold_members_ok qs [] (by simp) k ms hmem q hqin
    rw [hq] at hok
    exact Bool.noConfusion hok
  · intro hall
    rw [execution_based_clustering_gen]
    rw [generate_fold_all_err qs hall ([], [])]
    simp

/-- C7 witness: the failing candidate of the counterexample pair is not a
member of the succeeding candidate's cluster, and two all-failing
candidates are placed in one cluster keyed by their joined error texts. -/
theorem C7_failing_candidates_witness :
    (⟨"B", ExecResult.err "boom"⟩ : SQLMetaInfo) ∉
      ([⟨"G", ExecResult.ok [[1]]⟩] : List SQLMetaInfo) ∧
    execution_based_clustering_gen [⟨"B1", ExecResult.err "a"⟩, ⟨"B2", ExecResult.err "b"⟩] =
      [(String.intercalate "\n"
          (([⟨"B1", ExecResult.err "a"⟩, ⟨"B2", ExecResult.err "b"⟩] : List SQLMetaInfo).map
            (fun q => errText q.execResult)),
        [⟨"B1", ExecResult.err "a"⟩, ⟨"B2", ExecResult.err "b"⟩])] :=
  ⟨(C7_failing_candidates_dropped_unless_all_fail
      [⟨"G", ExecResult.ok [[1]]⟩, ⟨"B", ExecResult.err "boom"⟩]).1
      ⟨"B", ExecResult.err "boom"⟩ "[(1,)]" [⟨"G", ExecResult.ok [[1]]⟩]
      rfl (by decide),
   (C7_failing_candidates_dropped_unless_all_fail
      [⟨"B1", ExecResult.err "a"⟩, ⟨"B2", ExecResult.err "b"⟩]).2 (by decide)⟩

/-- C4 counterexample: with two candidates and one unit test, a single
failed judging call (a `None` response entry) makes `Evaluate._run`
raise a `TypeError` while building the score matrix, and failure of the
whole batched call (empty response) makes it raise an `IndexError`; in
both cases scoring aborts and no best candidate is selected. -/
theorem C4_counterexample_failed_judge_call_aborts :
    evaluateRun [⟨"A", ExecResult.ok [[1]]⟩, ⟨"B", ExecResult.ok [[2]]⟩] ["t"]
        (some [none]) =
      .raise "TypeError: NoneType object is not subscriptable" ∧
    evaluateRun [⟨"A", ExecResult.ok [[1]]⟩, ⟨"B", ExecResult.ok [[2]]⟩] ["t"] none =
      .raise "IndexError: list index out of range" := by
  exact ⟨rfl, rfl⟩

/-- C4 (amended): with at least two candidates and at least one unit
test, any failed individual judging call (a `None` entry) aborts the
scoring round with a `TypeError` — it is not absorbed as a row of zeros —
and failure of the whole batched call aborts it with an `IndexError`;
scoring completes and selects a best candidate from the candidate list
only when every judging call succeeds with well-formed score rows and at
least one candidate executes successfully. -/
theorem C4_scoring_aborts_on_failed_call (c0 c1 : SQLMetaInfo)
    (rest : List SQLMetaInfo) (tests : List String) (htests : tests ≠ []) :
    (∀ rs, none ∈ rs → evaluateRun (c0 :: c1 :: rest) tests (some rs) =
      .raise "TypeError: NoneType object is not subscriptable") ∧
    (evaluateRun (c0 :: c1 :: rest) tests none =
      .raise "IndexError: list index out of range") ∧
    (∀ rows : List (List Nat), rows ≠ [] →
      (∀ row ∈ rows, row.length = (c0 :: c1 :: rest).length) →
      (∃ q ∈ c0 :: c1 :: rest, q.execResult.isOk = true) →
      ∃ b scores, evaluateRun (c0 :: c1 :: rest) tests (some (rows.map some)) =
        .ok (b, scores, rows) ∧ b ∈ c0 :: c1 :: rest) := by
  have hlen : ¬ tests.length = 0 := by
    cases tests with
    | nil => exact absurd rfl htests
    | cons t ts => simp
  refine ⟨?_, ?_, ?_⟩
  · intro rs hrs
    simp only [evaluateRun, if_neg hlen, Option.getD_some, buildMatrix_none rs hrs]
  · simp only [evaluateRun, if_neg hlen, Option.getD_none, buildMatrix]
  · intro rows hne hwidth hok
    obtain ⟨row0, rtail, rfl⟩ : ∃ a l, rows = a :: l := by
      cases rows with
      | nil => exact absurd rfl hne
      | cons a l => exact ⟨a, l, rfl⟩
    have hrow0 : row0.length = (c0 :: c1 :: rest).length :=
      hwidth row0 (List.mem_cons_self _ _)
    have hw : ∀ row ∈ row0 :: rtail, row0.length ≤ row.length := by
      intro row hrow
      rw [hwidth row hrow, hrow0]
    have hcs := columnSums_ok (row0 :: rtail) row0.length hw
    have hclne : execution_based_clustering (c0 :: c1 :: rest) ≠ [] := by
      intro hnil
      obtain ⟨q, hq, hqok⟩ := hok
      have herr := (evaluate_fold_eq_nil (c0 :: c1 :: rest) [] hnil).2 q hq
      rw [hqok] at herr
      exact Bool.noConfusion herr
    have hscoreslen :
        ((List.range row0.length).map
          (fun i => (((row0 :: rtail).map (fun row => row.getD i 0)).sum))).length =
          (c0 :: c1 :: rest).length := by
      rw [List.length_map, List.length_range, hrow0]
    have hscoresne :
        ((List.range row0.length).map
          (fun i => (((row0 :: rtail).map (fun row => row.getD i 0)).sum))) ≠ [] := by
      intro hnil
      have := congrArg List.length hnil
      rw [hscoreslen] at this
      simp at this
    obtain ⟨b, hb, hbmem⟩ := pick_the_best_candidate_ok
      ((List.range row0.length).map
        (fun i => (((row0 :: rtail).map (fun row => row.getD i 0)).sum)))
      (c0 :: c1 :: rest) (execution_based_clustering (c0 :: c1 :: rest))
      hclne hscoresne (Nat.le_of_eq hscoreslen)
    refine ⟨b, (List.range row0.length).map
      (fun i => (((row0 :: rtail).map (fun row => row.getD i 0)).sum)), ?_, hbmem⟩
    simp only [evaluateRun, if_neg hlen, Option.getD_some,
      buildMatrix_map_some (row0 :: rtail), hcs, hb]

/-- C4 witness: the success branch of the theorem applied to two
successfully executing candidates, one test, and the well-formed score
row `[1, 0]`. -/
theorem C4_scoring_witness :
    ∃ b scores,
      evaluateRun [⟨"A", ExecResult.ok [[1]]⟩, ⟨"B", ExecResult.ok [[2]]⟩] ["t"]
          (some ([[1, 0]].map some)) = .ok (b, scores, [[1, 0]]) ∧
        b ∈ [⟨"A", ExecResult.ok [[1]]⟩, ⟨"B", ExecResult.ok [[2]]⟩] :=
  (C4_scoring_aborts_on_failed_call ⟨"A", ExecResult.ok [[1]]⟩ ⟨"B", ExecResult.ok [[2]]⟩
    [] ["t"] (by decide)).2.2 [[1, 0]] (by decide) (by decide)
    ⟨⟨"A", ExecResult.ok [[1]]⟩, by decide, rfl⟩

theorem aggClusters_fold_all_err (exec : String → ExecResult) (sqls : List String) :
    ∀ cs : List (List Row × List String), (∀ s ∈ sqls, (exec s).isOk = false) →
      sqls.foldl
        (fun cs s =>
          match exec s with
          | .ok r => addToClusterBy rowSetEqb cs r s
          | .err _ => cs) cs = cs := by
  induction sqls with
  | nil => intro cs _; rfl
  | cons p rest ih =>
    intro cs h
    rw [List.foldl_cons]
    cases hp : exec p with
    | ok r =>
      have := h p (List.mem_cons_self _ _)
      simp [ExecResult.isOk, hp] at this
    | err e =>
      exact ih cs (fun s hs => h s (List.mem_cons_of_mem _ hs))

theorem aggregate_sqls_of_nil (exec : String → ExecResult) (sqls : List String)
    (h : (aggClusters exec sqls).map Prod.snd = []) :
    aggregate_sqls exec sqls = sqls.headD "" := by
  simp only [aggregate_sqls, h]

theorem aggregate_sqls_of_cons (exec : String → ExecResult) (sqls : List String)
    (c : List String) (cs : List (List String)) (s : String) (ss : List String)
    (h : (aggClusters exec sqls).map Prod.snd = c :: cs)
    (h2 : pyMaxBy List.length c cs = s :: ss) :
    aggregate_sqls exec sqls = pyMinBy String.length s ss := by
  simp only [aggregate_sqls, h, h2]

/-- C10 (confirmed): for a non-empty SQL list, `aggregate_sqls` always
returns one of the input strings; when every query fails validation it
returns the first string; and when at least one validates it returns a
minimal-length member of a maximal-size cluster of result-set-equivalent
queries. -/
theorem C10_aggregate_sqls_selection (exec : String → ExecResult)
    (s0 : String) (rest : List String) :
    aggregate_sqls exec (s0 :: rest) ∈ s0 :: rest ∧
    ((∀ s ∈ s0 :: rest, (exec s).isOk = false) →
      aggregate_sqls exec (s0 :: rest) = s0) ∧
    ((∃ s ∈ s0 :: rest, (exec s).isOk = true) →
      ∃ C, C ∈ (aggClusters exec (s0 :: rest)).map Prod.snd ∧
        (∀ D ∈ (aggClusters exec (s0 :: rest)).map Prod.snd, D.length ≤ C.length) ∧
        aggregate_sqls exec (s0 :: rest) ∈ C ∧
        (∀ s ∈ C, (aggregate_sqls exec (s0 :: rest)).length ≤ s.length)) := by
  refine ⟨?_, ?_, ?_⟩
  · cases e : (aggClusters exec (s0 :: rest)).map Prod.snd with
    | nil =>
      rw [aggregate_sqls_of_nil exec (s0 :: rest) e]
      exact List.mem_cons_self _ _
    | cons c cs =>
      cases e2 : pyMaxBy List.length c cs with
      | nil =>
        rw [show aggregate_sqls exec (s0 :: rest) = (s0 :: rest).headD "" by
          simp only [aggregate_sqls, e, e2]]
        exact List.mem_cons_self _ _
      | cons s ss =>
        rw [aggregate_sqls_of_cons exec (s0 :: rest) c cs s ss e e2]
        have hlargest_mem : (s :: ss) ∈ c :: cs := by
          rcases pyMaxBy_mem List.length cs c with h1 | h2
          · rw [h1] at e2; rw [e2]; exact List.mem_cons_self _ _
          · rw [← e2]; exact List.mem_cons_of_mem _ h2
        rw [← e] at hlargest_mem
        obtain ⟨⟨k, ms⟩, hpmem, hsnd⟩ := List.mem_map.mp hlargest_mem
        have hms : ms = s :: ss := hsnd
        have hsub := (aggClusters_members exec (s0 :: rest) k ms hpmem).2
        rw [hms] at hsub
        have hmin_mem : pyMinBy String.length s ss ∈ s :: ss := by
          rcases pyMinBy_mem String.length ss s with h1 | h2
          · rw [h1]; exact List.mem_cons_self _ _
          · exact List.mem_cons_of_mem _ h2
        exact hsub _ hmin_mem
  · intro hall
    have hnil : aggClusters exec (s0 :: rest) = [] :=
      aggClusters_fold_all_err exec (s0 :: rest) [] hall
    rw [aggregate_sqls_of_nil exec (s0 :: rest) (by rw [hnil]; rfl)]
    rfl
  · intro hsome
    have hne : aggClusters exec (s0 :: rest) ≠ [] := by
      intro hnil
      obtain ⟨s, hs, hok⟩ := hsome
      have herr := (aggClusters_fold_eq_nil exec (s0 :: rest) [] hnil).2 s hs
      rw [hok] at herr
      exact Bool.noConfusion herr
    obtain ⟨c, cs, e⟩ : ∃ c cs, (aggClusters exec (s0 :: rest)).map Prod.snd = c :: cs := by
      cases e0 : (aggClusters exec (s0 :: rest)).map Prod.snd with
      | nil =>
        rw [List.map_eq_nil_iff] at e0
        exact absurd e0 hne
      | cons c cs => exact ⟨c, cs, rfl⟩
    have hlargest_mem : pyMaxBy List.length c cs ∈ c :: cs := by
      rcases pyMaxBy_mem List.length cs c with h1 | h2
      · rw [h1]; exact List.mem_cons_self _ _
      · exact List.mem_cons_of_mem _ h2
    have hlargest_mem2 : pyMaxBy List.length c cs ∈
        (aggClusters exec (s0 :: rest)).map Prod.snd := by
      rw [e]; exact hlargest_mem
    obtain ⟨⟨k, ms⟩, hpmem, hsnd⟩ := List.mem_map.mp hlargest_mem2
    have hmsne := (aggClusters_members exec (s0 :: rest) k ms hpmem).1
    obtain ⟨s, ss, e2⟩ : ∃ s ss, pyMaxBy List.length c cs = s :: ss := by
      cases e0 : pyMaxBy List.length c cs with
      | nil =>
        rw [e0] at hsnd
        exact absurd hsnd.symm (by simpa using hmsne)
      | cons s ss => exact ⟨s, ss, rfl⟩
    refine ⟨s :: ss, ?_, ?_, ?_, ?_⟩
    · rw [e, ← e2]; exact hlargest_mem
    · intro D hD
      rw [e] at hD
      have := pyMaxBy_le List.length cs c D (by
        rcases List.mem_cons.mp hD with h1 | h2
        · exact Or.inl h1
        · exact Or.inr h2)
      rw [e2] at this
      exact this
    · rw [aggregate_sqls_of_cons exec (s0 :: rest) c cs s ss e e2]
      rcases pyMinBy_mem String.length ss s with h1 | h2
      · rw [h1]; exact List.mem_cons_self _ _
      · exact List.mem_cons_of_mem _ h2
    · intro t ht
      rw [aggregate_sqls_of_cons exec (s0 :: rest) c cs s ss e e2]
      exact pyMinBy_le String.length ss s t (by
        rcases List.mem_cons.mp ht with h1 | h2
        · exact Or.inl h1
        · exact Or.inr h2)

/-- C10 witness: with an oracle that validates every query with the same
result set, the two queries form one cluster and the shorter one is
returned. -/
theorem C10_aggregate_sqls_witness :
    aggregate_sqls (fun _ => ExecResult.ok [[1]]) ["aa", "b"] ∈ ["aa", "b"] ∧
    ∃ C, C ∈ (aggClusters (fun _ => ExecResult.ok [[1]]) ["aa", "b"]).map Prod.snd ∧
      (∀ D ∈ (aggClusters (fun _ => ExecResult.ok [[1]]) ["aa", "b"]).map Prod.snd,
        D.length ≤ C.length) ∧
      aggregate_sqls (fun _ => ExecResult.ok [[1]]) ["aa", "b"] ∈ C ∧
      (∀ s ∈ C, (aggregate_sqls (fun _ => ExecResult.ok [[1]]) ["aa", "b"]).length ≤
        s.length) :=
  ⟨(C10_aggregate_sqls_selection (fun _ => ExecResult.ok [[1]]) "aa" ["b"]).1,
   (C10_aggregate_sqls_selection (fun _ => ExecResult.ok [[1]]) "aa" ["b"]).2.2
     ⟨"aa", by decide, rfl⟩⟩
